import Mathlib

/-!
Verification of the requirements-to-test pipeline: a shallow embedding of the
requirement extractor, hierarchy manager, test-code synthesizer's method-name
derivation, and the pytest result correlator, with theorems checking the
specification's claims about them.

Strings are modelled as `List Char`; Python string builtins are modelled by
the `py*` helpers below.
-/

namespace ReqToTest

/-- Models Python's whitespace class for `str.split()` / `str.strip()` / `\s`
(ASCII fragment: space, tab, newline, carriage return, vertical tab, form feed). -/
def pyIsSpace (c : Char) : Bool :=
  c = ' ' || c = '\t' || c = '\n' || c = '\r' || c = '\x0b' || c = '\x0c'

/-- Models Python `str.lower()` (ASCII character mapping). -/
def lowerL (s : List Char) : List Char := s.map Char.toLower

/-- Models Python's substring test `pat in s`. -/
def containsSub : List Char → List Char → Bool
  | [], pat => pat.isEmpty
  | c :: t, pat => pat.isPrefixOf (c :: t) || containsSub t pat

/-- True when some word of `words` is a substring of `s` (Python
`any(w in s for w in words)`). -/
def containsAny (s : List Char) (words : List (List Char)) : Bool :=
  words.any (fun w => containsSub s w)

/-- Dropping a prefix by a predicate never lengthens a list (termination
helper). -/
theorem dropWhile_length_le (p : Char → Bool) :
    ∀ l : List Char, (l.dropWhile p).length ≤ l.length := by
  intro l
  induction l with
  | nil => simp [List.dropWhile]
  | cons c cs ih =>
    simp only [List.dropWhile]
    cases p c <;> simp <;> omega

/-- Models Python `str.strip()`. -/
def stripL (s : List Char) : List Char :=
  ((s.dropWhile pyIsSpace).reverse.dropWhile pyIsSpace).reverse

/-- Helper for `splitWs`: accumulates the current (reversed) token. -/
def splitWsAux (cur : List Char) : List Char → List (List Char)
  | [] => if cur.isEmpty then [] else [cur.reverse]
  | c :: cs =>
    if pyIsSpace c then
      if cur.isEmpty then splitWsAux [] cs else cur.reverse :: splitWsAux [] cs
    else splitWsAux (c :: cur) cs

/-- Models Python `str.split()` with no argument: maximal non-whitespace runs,
empties dropped. -/
def splitWs (s : List Char) : List (List Char) := splitWsAux [] s

/-- Models Python `sep.join(parts)`. -/
def joinSep (sep : List Char) : List (List Char) → List Char
  | [] => []
  | [t] => t
  | t :: ts => t ++ sep ++ joinSep sep ts

/-- Helper for `pySplit`: each step consumes at least one character, so a
fuel equal to the input length never runs out (the zero-fuel fallback is
unreachable from `pySplit`); fuel keeps the recursion structural. -/
def pySplitGo (sep : List Char) : Nat → List Char → List Char → List (List Char)
  | _, cur, [] => [cur.reverse]
  | 0, cur, c :: cs => [cur.reverse ++ c :: cs]
  | fuel + 1, cur, c :: cs =>
    if !sep.isEmpty && sep.isPrefixOf (c :: cs) then
      cur.reverse :: pySplitGo sep fuel [] ((c :: cs).drop sep.length)
    else
      pySplitGo sep fuel (c :: cur) cs

/-- Models Python `s.split(sep)` for a non-empty separator. -/
def pySplit (s sep : List Char) : List (List Char) := pySplitGo sep s.length [] s

/-- Sentence terminators used by the extractor's `re.split(r'[.!?]+', text)`. -/
def isSentSep (c : Char) : Bool := c = '.' || c = '!' || c = '?'

mutual

/-- Helper for `splitSents`: accumulates the current (reversed) fragment;
on a terminator it emits the fragment and switches to run-swallowing mode. -/
def splitSentsGo (cur : List Char) : List Char → List (List Char)
  | [] => [cur.reverse]
  | c :: cs =>
    if isSentSep c then cur.reverse :: splitSentsSkip cs
    else splitSentsGo (c :: cur) cs

/-- Helper for `splitSents`: swallows the rest of a terminator run, then
resumes fragment accumulation. -/
def splitSentsSkip : List Char → List (List Char)
  | [] => [[]]
  | c :: cs => if isSentSep c then splitSentsSkip cs else splitSentsGo [c] cs

end

/-- Models `re.split(r'[.!?]+', text)`: split on each maximal run of sentence
terminators. -/
def splitSents (s : List Char) : List (List Char) := splitSentsGo [] s

/-- Decimal digits of a natural number, as characters. -/
def natChars (n : Nat) : List Char := (Nat.repr n).data

/-- Zero-pads to width 3, modelling Python's `{:03d}` format. -/
def pad3 (s : List Char) : List Char :=
  if 3 ≤ s.length then s else List.replicate (3 - s.length) '0' ++ s

/-- Top-level requirement id `REQ_{n:03d}`. -/
def reqIdStr (n : Nat) : List Char := "REQ_".data ++ pad3 (natChars n)

/-- Models Python `\w` (ASCII fragment): alphanumeric or underscore. -/
def pyIsWordChar (c : Char) : Bool := c.isAlphanum || c = '_'

mutual

/-- Models `re.sub(r'\s+', '_', name)`: each maximal whitespace run becomes a
single underscore. -/
def collapseWsU : List Char → List Char
  | [] => []
  | c :: cs =>
    if pyIsSpace c then '_' :: collapseWsSkip cs
    else c :: collapseWsU cs

/-- Helper for `collapseWsU`: swallows the rest of a whitespace run. -/
def collapseWsSkip : List Char → List Char
  | [] => []
  | c :: cs => if pyIsSpace c then collapseWsSkip cs else c :: collapseWsU cs

end

/-- `TestCodeGenerator._create_method_name` from
`requirements_to_test_gui.py`: lowercase, strip non-word/non-space
characters, collapse whitespace to underscores, truncate to 50, prefix
`req_` when starting with a digit, default `requirement_test` when empty. -/
def TestCodeGenerator.create_method_name (requirement_text : List Char) : List Char :=
  let name := (lowerL requirement_text).filter (fun c => pyIsWordChar c || pyIsSpace c)
  let name := collapseWsU name
  let name := name.take 50
  let name :=
    match name with
    | [] => []
    | c :: cs => if c.isDigit then "req_".data ++ (c :: cs) else c :: cs
  if name.isEmpty then "requirement_test".data else name

/-- `TestRunner._create_method_name` from `runner.py`: lowercase, strip
non-word/non-space characters, collapse whitespace to underscores, truncate
to 50, prefix `req_` when starting with a digit, default `requirement_test`
when empty. -/
def TestRunner.create_method_name (requirement_text : List Char) : List Char :=
  let name := (lowerL requirement_text).filter (fun c => pyIsWordChar c || pyIsSpace c)
  let name := collapseWsU name
  let name := name.take 50
  let name :=
    match name with
    | [] => []
    | c :: cs => if c.isDigit then "req_".data ++ (c :: cs) else c :: cs
  if name.isEmpty then "requirement_test".data else name

/-- Keyword list of `RequirementsParser.__init__` that marks a sentence as a
requirement. -/
def requirement_keywords : List (List Char) :=
  ["should".data, "must".data, "shall".data, "will".data, "needs to".data,
   "required to".data, "has to".data, "ought to".data, "is required".data,
   "is expected".data, "validates".data, "ensures".data, "verifies".data,
   "checks".data, "prevents".data, "allows".data, "enables".data]

/-- Keywords of the Validation branch of `_categorize_requirement`. -/
def validationWords : List (List Char) :=
  ["validate".data, "check".data, "verify".data, "ensure".data]

/-- Keywords of the Input branch of `_categorize_requirement`. -/
def inputWords : List (List Char) :=
  ["input".data, "enter".data, "provide".data]

/-- Keywords of the Output branch of `_categorize_requirement`. -/
def outputWords : List (List Char) :=
  ["output".data, "display".data, "show".data, "return".data]

/-- Keywords of the Security branch of `_categorize_requirement`. -/
def securityWords : List (List Char) :=
  ["security".data, "authenticate".data, "authorize".data]

/-- Keywords of the Performance branch of `_categorize_requirement`. -/
def performanceWords : List (List Char) :=
  ["performance".data, "speed".data, "fast".data, "time".data]

/-- `RequirementsParser._categorize_requirement`: first-matching keyword
group on the lowercased sentence decides the category, else Functional. -/
def categorize_requirement (sentence : List Char) : List Char :=
  let sl := lowerL sentence
  if containsAny sl validationWords then "Validation".data
  else if containsAny sl inputWords then "Input".data
  else if containsAny sl outputWords then "Output".data
  else if containsAny sl securityWords then "Security".data
  else if containsAny sl performanceWords then "Performance".data
  else "Functional".data

/-- Models Python `str.upper()` applied to a single character, as
`_clean_requirement` does to `sentence[0]`. ASCII letters map one-to-one;
the German sharp s expands to `SS` exactly as in Python; other characters
are returned unchanged (sufficient for the texts in this development). -/
def pyUpperFirst (c : Char) : List Char :=
  if c = 'ß' then "SS".data else [c.toUpper]

/-- `RequirementsParser._clean_requirement`: collapse whitespace, capitalize
the first character, terminate with a period. -/
def clean_requirement (sentence : List Char) : List Char :=
  let s := joinSep [' '] (splitWs sentence)
  let s :=
    match s with
    | [] => []
    | c :: cs => pyUpperFirst c ++ cs
  if s.isEmpty then s
  else if s.getLast? == some '.' then s
  else s ++ ['.']

/-- A requirement record as built by `RequirementsParser`: id, text,
category, checked flag, optional `parent_id`, and nested
`sub_requirements`. -/
inductive Req : Type where
  | mk (id : List Char) (text : List Char) (category : List Char)
       (checked : Bool) (parent : Option (List Char)) (children : List Req)

/-- The `id` field of a requirement record. -/
def Req.id : Req → List Char
  | .mk i _ _ _ _ _ => i

/-- The `text` field of a requirement record. -/
def Req.text : Req → List Char
  | .mk _ t _ _ _ _ => t

/-- The `category` field of a requirement record. -/
def Req.category : Req → List Char
  | .mk _ _ c _ _ _ => c

/-- The `checked` field of a requirement record. -/
def Req.checked : Req → Bool
  | .mk _ _ _ b _ _ => b

/-- The `parent_id` field of a requirement record (`none` at top level). -/
def Req.parent : Req → Option (List Char)
  | .mk _ _ _ _ p _ => p

/-- The `sub_requirements` field of a requirement record. -/
def Req.children : Req → List Req
  | .mk _ _ _ _ _ cs => cs

/-- The per-sentence loop of `RequirementsParser.extract_requirements`:
`i` is the 0-based index of the current sentence in the split. -/
def extractGo : Nat → List (List Char) → List Req
  | _, [] => []
  | i, s :: rest =>
    let sentence := stripL s
    if sentence.isEmpty then extractGo (i + 1) rest
    else if containsAny (lowerL sentence) requirement_keywords then
      let cs := clean_requirement sentence
      if cs.isEmpty then extractGo (i + 1) rest
      else Req.mk (reqIdStr (i + 1)) cs (categorize_requirement cs) false none []
             :: extractGo (i + 1) rest
    else extractGo (i + 1) rest

/-- `RequirementsParser.extract_requirements`: sentence-split the text, keep
keyword-bearing sentences, and number records by original sentence index. -/
def extract_requirements (text : List Char) : List Req :=
  extractGo 0 (splitSents text)

/-- `RequirementsParser.add_sub_requirement`: appends one child built from
`sub_text` to the parent's children; returns the updated parent and the new
child record. -/
def add_sub_requirement (parent : Req) (sub_text : List Char) : Req × Req :=
  match parent with
  | .mk pid t c ch pp kids =>
    let sub_id := pid ++ '.' :: natChars (kids.length + 1)
    let sub := Req.mk sub_id (clean_requirement sub_text)
      (categorize_requirement sub_text) false (some pid) []
    (Req.mk pid t c ch pp (kids ++ [sub]), sub)

/-- `RequirementsParser._renumber_sub_requirements`, generalized to start at
sibling position `i`: each child of the record with id `pid` gets id
`{pid}.{position+1}` and `parent_id = pid`, recursively in its own
children. -/
def renumberFrom (pid : List Char) (i : Nat) : List Req → List Req
  | [] => []
  | .mk _ t c ch _ kids :: rest =>
    Req.mk (pid ++ '.' :: natChars (i + 1)) t c ch (some pid)
        (renumberFrom (pid ++ '.' :: natChars (i + 1)) 0 kids)
      :: renumberFrom pid (i + 1) rest
termination_by l => sizeOf l
decreasing_by
  all_goals simp
  all_goals omega

/-- `RequirementsParser.remove_sub_requirement`: pops the child at
`sub_index` when in range and renumbers the survivors (returning `true`),
otherwise leaves the parent unchanged and returns `false`. -/
def remove_sub_requirement (parent : Req) (sub_index : Nat) : Req × Bool :=
  match parent with
  | .mk pid t c ch pp kids =>
    if sub_index < kids.length then
      (Req.mk pid t c ch pp (renumberFrom pid 0 (kids.eraseIdx sub_index)), true)
    else (parent, false)

/-- Id/parent-reference consistency of a child list below a record with id
`pid`, starting at sibling position `i`: each record's id is its parent's id
followed by `.` and its 1-based position, its `parent_id` is `pid`, and the
same holds recursively for its own children. -/
def idsOkFrom (pid : List Char) (i : Nat) : List Req → Bool
  | [] => true
  | .mk cid _ _ _ cp kids :: rest =>
    (cid == pid ++ '.' :: natChars (i + 1)) && (cp == some pid) &&
      idsOkFrom cid 0 kids && idsOkFrom pid (i + 1) rest
termination_by l => sizeOf l
decreasing_by
  all_goals simp
  all_goals omega

/-- Renumbering from position `i` establishes id consistency from `i`. -/
theorem renumberFrom_ok (pid : List Char) (i : Nat) (l : List Req) :
    idsOkFrom pid i (renumberFrom pid i l) = true := by
  match l with
  | [] => simp [renumberFrom, idsOkFrom]
  | .mk a t c ch p kids :: rest =>
    have h1 := renumberFrom_ok (pid ++ '.' :: natChars (i + 1)) 0 kids
    have h2 := renumberFrom_ok pid (i + 1) rest
    simp [renumberFrom, idsOkFrom, h1, h2]
termination_by sizeOf l
decreasing_by
  all_goals simp
  all_goals omega

/-- The accumulator-style traversal of
`RequirementsParser.get_all_requirements_flat.flatten_recursive`: appends
each record, then its children recursively, to the accumulated list. -/
def flattenGo : List Req → List Req → List Req
  | acc, [] => acc
  | acc, .mk a t c ch p kids :: rest =>
    flattenGo (flattenGo (acc ++ [Req.mk a t c ch p kids]) kids) rest
termination_by _ l => sizeOf l
decreasing_by
  all_goals simp
  all_goals omega

/-- `RequirementsParser.get_all_requirements_flat`. -/
def get_all_requirements_flat (requirements : List Req) : List Req :=
  flattenGo [] requirements

/-- Depth-first pre-order flattening as the specification words it (each
record immediately followed by all of its descendants before its next
sibling); stated for comparison with `get_all_requirements_flat`. -/
def preorderFlatten : List Req → List Req
  | [] => []
  | .mk a t c ch p kids :: rest =>
    Req.mk a t c ch p kids :: (preorderFlatten kids ++ preorderFlatten rest)
termination_by l => sizeOf l
decreasing_by
  all_goals simp
  all_goals omega

/-- The accumulator traversal equals accumulator-prepended pre-order. -/
theorem flattenGo_eq (acc : List Req) (l : List Req) :
    flattenGo acc l = acc ++ preorderFlatten l := by
  match l with
  | [] => simp [flattenGo, preorderFlatten]
  | .mk a t c ch p kids :: rest =>
    have h1 := flattenGo_eq (acc ++ [Req.mk a t c ch p kids]) kids
    have h2 := flattenGo_eq ((acc ++ [Req.mk a t c ch p kids]) ++ preorderFlatten kids) rest
    simp only [flattenGo, preorderFlatten, h1, h2]
    simp
termination_by sizeOf l
decreasing_by
  all_goals simp
  all_goals omega

/-- Sample child record B of the C6 example forest. -/
def reqB : Req := Req.mk "A.1".data "B".data "Functional".data false (some "A".data) []

/-- Sample child record C of the C6 example forest. -/
def reqC : Req := Req.mk "A.2".data "C".data "Functional".data false (some "A".data) []

/-- Sample root record A (children B and C) of the C6 example forest. -/
def reqA : Req := Req.mk "A".data "A".data "Functional".data false none [reqB, reqC]

/-- Sample root record D of the C6 example forest. -/
def reqD : Req := Req.mk "D".data "D".data "Functional".data false none []

/-- Sample grandchild record for the C3 witness. -/
def sampleGrandchild : Req :=
  Req.mk "P.2.1".data "G".data "Functional".data false (some "P.2".data) []

/-- Sample first child for the C3 witness. -/
def sampleChild1 : Req :=
  Req.mk "P.1".data "C1".data "Functional".data false (some "P".data) []

/-- Sample second child (with one grandchild) for the C3 witness. -/
def sampleChild2 : Req :=
  Req.mk "P.2".data "C2".data "Functional".data false (some "P".data) [sampleGrandchild]

/-- Sample parent with two children for the C3 witness. -/
def sampleParent : Req :=
  Req.mk "P".data "P".data "Functional".data false none [sampleChild1, sampleChild2]

/-- Claim C1: the method-name derivation used by the Test Code Synthesizer
(`TestCodeGenerator._create_method_name`) and the one recomputed by the
Result Correlator (`TestRunner._create_method_name`) are the identical pure
function: for every requirement text they return the same token, so
re-deriving the name from the same text always reproduces it character for
character, independently of the requirement's category (which neither
function consults). -/
theorem create_method_name_generator_runner_agree (t : List Char) :
    TestCodeGenerator.create_method_name t = TestRunner.create_method_name t := rfl

/-- Claim C2: on the input "The app should validate input. Random filler
sentence. Users must authenticate." extraction returns exactly two records,
REQ_001 with category Validation and REQ_003 with category Security; the
filler sentence yields no record, so no REQ_002 exists and the ids are
non-contiguous. -/
theorem extract_requirements_end_to_end :
    extract_requirements
        "The app should validate input. Random filler sentence. Users must authenticate.".data
      = [Req.mk "REQ_001".data "The app should validate input.".data "Validation".data
           false none [],
         Req.mk "REQ_003".data "Users must authenticate.".data "Security".data
           false none []] := by
  rfl

/-- Claim C3: for an in-range index, `remove_sub_requirement` returns true
and afterwards every surviving child of the parent at 0-based position i has
id `{parent.id}.{i+1}` and `parent_id = parent.id`, recursively for every
descendant (each descendant's id is its parent's new id plus `.` plus its
1-based sibling position), so no stale pre-removal id survives; an
out-of-range index returns false and leaves the parent unchanged. -/
theorem remove_sub_requirement_renumbers (parent : Req) (idx : Nat) :
    (idx < parent.children.length →
      (remove_sub_requirement parent idx).2 = true ∧
      idsOkFrom (remove_sub_requirement parent idx).1.id 0
        (remove_sub_requirement parent idx).1.children = true) ∧
    (parent.children.length ≤ idx →
      remove_sub_requirement parent idx = (parent, false)) := by
  match parent with
  | .mk pid t c ch pp kids =>
    constructor
    · intro h
      simp only [Req.children] at h
      simp [remove_sub_requirement, h, Req.id, Req.children]
      exact renumberFrom_ok pid 0 (kids.eraseIdx idx)
    · intro h
      simp only [Req.children] at h
      have h' : ¬ idx < kids.length := Nat.not_lt.mpr h
      simp [remove_sub_requirement, h']

/-- Concrete run of claim C3's theorem: removing child 0 of a parent with
two children (the second having a grandchild) succeeds and leaves a fully
renumbered, id-consistent subtree. -/
theorem remove_sub_requirement_renumbers_witness :
    (remove_sub_requirement sampleParent 0).2 = true ∧
    idsOkFrom (remove_sub_requirement sampleParent 0).1.id 0
      (remove_sub_requirement sampleParent 0).1.children = true :=
  (remove_sub_requirement_renumbers sampleParent 0).1 (by decide)

/-- Claim C6: `get_all_requirements_flat` flattens in depth-first pre-order
(each record immediately followed by all of its descendants before its next
sibling): it equals the specification's pre-order flattening on every
forest, and on the forest [A[B,C]],[D] it yields A, B, C, D. -/
theorem get_all_requirements_flat_preorder :
    (∀ requirements : List Req,
        get_all_requirements_flat requirements = preorderFlatten requirements) ∧
    get_all_requirements_flat [reqA, reqD] = [reqA, reqB, reqC, reqD] := by
  constructor
  · intro rs
    have h := flattenGo_eq [] rs
    simpa [get_all_requirements_flat] using h
  · have h := flattenGo_eq [] [reqA, reqD]
    simp only [get_all_requirements_flat]
    rw [h]
    simp [reqA, reqB, reqC, reqD, preorderFlatten]

/-- Claim C7: `_categorize_requirement` assigns the category by first match
in the fixed priority order Validation-words, Input-words, Output-words,
Security-words, Performance-words, else Functional; in particular every
sentence containing "validate" (even one also containing "authenticate") is
categorized Validation, never Security. -/
theorem categorize_requirement_priority (s : List Char) :
    (containsAny (lowerL s) validationWords = true →
      categorize_requirement s = "Validation".data) ∧
    (containsAny (lowerL s) validationWords = false →
      containsAny (lowerL s) inputWords = true →
      categorize_requirement s = "Input".data) ∧
    (containsAny (lowerL s) validationWords = false →
      containsAny (lowerL s) inputWords = false →
      containsAny (lowerL s) outputWords = true →
      categorize_requirement s = "Output".data) ∧
    (containsAny (lowerL s) validationWords = false →
      containsAny (lowerL s) inputWords = false →
      containsAny (lowerL s) outputWords = false →
      containsAny (lowerL s) securityWords = true →
      categorize_requirement s = "Security".data) ∧
    (containsAny (lowerL s) validationWords = false →
      containsAny (lowerL s) inputWords = false →
      containsAny (lowerL s) outputWords = false →
      containsAny (lowerL s) securityWords = false →
      containsAny (lowerL s) performanceWords = true →
      categorize_requirement s = "Performance".data) ∧
    (containsAny (lowerL s) validationWords = false →
      containsAny (lowerL s) inputWords = false →
      containsAny (lowerL s) outputWords = false →
      containsAny (lowerL s) securityWords = false →
      containsAny (lowerL s) performanceWords = false →
      categorize_requirement s = "Functional".data) ∧
    (containsSub (lowerL s) "validate".data = true →
      categorize_requirement s = "Validation".data) := by
  refine ⟨?_, ?_, ?_, ?_, ?_, ?_, ?_⟩
  · intro h1
    simp [categorize_requirement, h1]
  · intro h1 h2
    simp [categorize_requirement, h1, h2]
  · intro h1 h2 h3
    simp [categorize_requirement, h1, h2, h3]
  · intro h1 h2 h3 h4
    simp [categorize_requirement, h1, h2, h3, h4]
  · intro h1 h2 h3 h4 h5
    simp [categorize_requirement, h1, h2, h3, h4, h5]
  · intro h1 h2 h3 h4 h5
    simp [categorize_requirement, h1, h2, h3, h4, h5]
  · intro h
    have hv : containsAny (lowerL s) validationWords = true := by
      simp [containsAny, validationWords, h]
    simp [categorize_requirement, hv]

/-- Concrete run of claim C7's theorem: a sentence containing both
"validate" and "authenticate" gets category Validation. -/
theorem categorize_requirement_priority_witness :
    categorize_requirement "Users must validate and authenticate input".data
      = "Validation".data :=
  (categorize_requirement_priority
    "Users must validate and authenticate input".data).1 (by decide)

/-- Claim C8 (amended): `add_sub_requirement` appends exactly one new child
with id `{parent.id}.{n+1}` (n = prior child count), checked false, empty
children, `parent_id` equal to the parent's id, cleaned text, and the
category computed from the raw sub-requirement text; the raw-text category
can differ from the category of the normalized text (see the
counterexample), so it does not always equal the one §4.1 step 4 would
assign. -/
theorem add_sub_requirement_appends (parent : Req) (sub_text : List Char) :
    (add_sub_requirement parent sub_text).1.children
        = parent.children ++ [(add_sub_requirement parent sub_text).2] ∧
    (add_sub_requirement parent sub_text).2
        = Req.mk (parent.id ++ '.' :: natChars (parent.children.length + 1))
            (clean_requirement sub_text) (categorize_requirement sub_text)
            false (some parent.id) [] ∧
    (add_sub_requirement parent sub_text).1.id = parent.id ∧
    (add_sub_requirement parent sub_text).1.text = parent.text ∧
    (add_sub_requirement parent sub_text).1.category = parent.category ∧
    (add_sub_requirement parent sub_text).1.checked = parent.checked ∧
    (add_sub_requirement parent sub_text).1.parent = parent.parent := by
  match parent with
  | .mk pid t c ch pp kids =>
    refine ⟨?_, ?_, ?_, ?_, ?_, ?_, ?_⟩ <;>
      simp [add_sub_requirement, Req.id, Req.text, Req.category, Req.checked,
        Req.parent, Req.children]

/-- Claim C8 counterexample: for the sub-requirement text "ßecurity stuff"
the code stores the raw-text category Functional, while the §4.1 category of
the normalized text is Security — normalization uppercases the leading 'ß'
to "SS" (as Python's str.upper does), and lowering "SSecurity" yields the
substring "security". So the raw-text and normalized-text categories are
not equal for every input text. -/
theorem add_sub_requirement_category_counterexample :
    (add_sub_requirement (Req.mk "REQ_001".data "R".data "Functional".data false none [])
        "ßecurity stuff".data).2.category
      ≠ categorize_requirement (clean_requirement "ßecurity stuff".data) := by
  decide

/-- Test outcome status values used by the Result Correlator. -/
inductive Status : Type where
  | passed
  | failed
  | error
  | skipped
  | unknown
deriving DecidableEq

/-- A Python float value as `_parse_pytest_output` can store one: a finite
value (held as the exact rational of the parsed literal; IEEE rounding is
sign-preserving, which is all the properties below depend on), one of the
two infinities, or nan. -/
inductive PyFloat : Type where
  | finite (q : ℚ)
  | pinf
  | ninf
  | nan
deriving DecidableEq

/-- Models the Python comparison `d >= 0` on a float value: true for finite
nonnegative values (including negative zero, which ℚ collapses to 0) and
positive infinity; false for finite negative values, negative infinity and
nan. -/
def PyFloat.nonneg : PyFloat → Bool
  | .finite q => decide (0 ≤ q)
  | .pinf => true
  | .ninf => false
  | .nan => false

/-- A test outcome record: status, message, and duration in seconds. -/
structure Outcome : Type where
  status : Status
  message : List Char
  duration : PyFloat
deriving DecidableEq

/-- Message stored for a PASSED line. -/
def msgPassed : List Char := "Test passed successfully".data

/-- Message stored for a FAILED line. -/
def msgFailed : List Char := "Test failed - check implementation".data

/-- Message stored for an ERROR line. -/
def msgError : List Char := "Test error - check syntax".data

/-- Message of the dead unknown branch. -/
def msgUnknown : List Char := "Unknown test result".data

/-- Message of the exit-code-0 fallback. -/
def msgInferredPass : List Char := "Test passed (inferred from exit code)".data

/-- Message of the nonzero-exit-code fallback. -/
def msgInferredFail : List Char := "Test failed (inferred from exit code)".data

/-- Message of the skipped fill for unmatched requirements. -/
def msgNotExecuted : List Char := "Test was not executed or could not be parsed".data

/-- The skipped outcome assigned to requirements left unmatched. -/
def skippedOutcome : Outcome := ⟨Status.skipped, msgNotExecuted, PyFloat.finite 0⟩

/-- Dictionary model: bindings listed most-recent-first; lookup returns the
first (most recent) binding, matching Python dict overwrite semantics. -/
def alookup {α : Type} (m : List (List Char × α)) (k : List Char) : Option α :=
  (m.find? (fun p => p.1 == k)).map (fun p => p.2)

/-- Value of a digit string, most significant first. -/
def digitsVal (ds : List Char) : Nat :=
  ds.foldl (fun n c => n * 10 + (c.toNat - '0'.toNat)) 0

/-- Models a Python `digitpart` (ASCII digits with single underscores
between digits, as in `1_000`): returns the digit characters with the
underscores removed, or `none` when malformed. The first character must
already have been checked to be a digit (see `parseDigitPart`). -/
def digitsUnderGo : List Char → Option (List Char)
  | [] => some []
  | '_' :: c :: cs =>
    if c.isDigit then (digitsUnderGo cs).map (fun r => c :: r) else none
  | c :: cs =>
    if c.isDigit then (digitsUnderGo cs).map (fun r => c :: r) else none

/-- A whole Python `digitpart`: non-empty, starts with a digit, underscores
only between digits (so `1_`, `_1` and `1__0` are all rejected, as Python's
`float()` rejects them). -/
def parseDigitPart (ds : List Char) : Option (List Char) :=
  match ds with
  | [] => none
  | c :: _ => if c.isDigit then digitsUnderGo ds else none

/-- The exponent field of a Python float literal, after the `e`/`E`:
optional sign followed by a `digitpart`. -/
def parseExp (xs : List Char) : Option Int :=
  let sgnv : Bool × List Char :=
    match xs with
    | '-' :: r => (true, r)
    | '+' :: r => (false, r)
    | _ => (false, xs)
  match parseDigitPart sgnv.2 with
  | none => none
  | some ds => some (if sgnv.1 then -(digitsVal ds : Int) else (digitsVal ds : Int))

/-- The mantissa of a Python float literal: `digitpart`, `digitpart.`,
`digitpart.digitpart` or `.digitpart` (at least one digit in total).
Returns (integer-part value, fraction value, fraction digit count). -/
def parseMantissa (m : List Char) : Option (Nat × Nat × Nat) :=
  let ip := m.takeWhile (fun c => c ≠ '.')
  let rest := m.dropWhile (fun c => c ≠ '.')
  match rest with
  | [] =>
    match parseDigitPart ip with
    | none => none
    | some ds => some (digitsVal ds, 0, 0)
  | _ :: fr =>
    let ipd : Option (List Char) := if ip.isEmpty then some [] else parseDigitPart ip
    let frd : Option (List Char) := if fr.isEmpty then some [] else parseDigitPart fr
    match ipd, frd with
    | some ds, some fs =>
      if ds.isEmpty && fs.isEmpty then none
      else some (digitsVal ds, digitsVal fs, fs.length)
    | _, _ => none

/-- The exact rational `(ipv + frv / 10^frLen) * 10^e` of a parsed mantissa
and exponent, built through `mkRat` so it evaluates in the kernel. -/
def mantExpVal (ipv frv frLen : Nat) (e : Int) : ℚ :=
  match e with
  | Int.ofNat k => mkRat ((ipv * 10 ^ frLen + frv) * 10 ^ k) (10 ^ frLen)
  | Int.negSucc k => mkRat (ipv * 10 ^ frLen + frv) (10 ^ frLen * 10 ^ (k + 1))

/-- Models Python `float()` on a string: strip whitespace, optional sign,
then either `inf`/`infinity`/`nan` (case-insensitive) or a decimal literal
`[digitpart][.digitpart][(e|E)[sign]digitpart]` with at least one mantissa
digit, underscores allowed between digits; anything else is a ValueError
(`none`). Finite values are the exact rational of the literal (ASCII-digit
fragment; IEEE rounding, which cannot change the sign, is not modelled). -/
def parsePyFloat (s : List Char) : Option PyFloat :=
  let t := stripL s
  let sgnu : Bool × List Char :=
    match t with
    | '-' :: r => (true, r)
    | '+' :: r => (false, r)
    | _ => (false, t)
  let ul := lowerL sgnu.2
  if ul = "inf".data || ul = "infinity".data then
    some (if sgnu.1 then PyFloat.ninf else PyFloat.pinf)
  else if ul = "nan".data then
    some PyFloat.nan
  else
    let mant := (sgnu.2).takeWhile (fun c => !(c = 'e' || c = 'E'))
    let erest := (sgnu.2).dropWhile (fun c => !(c = 'e' || c = 'E'))
    match parseMantissa mant with
    | none => none
    | some v =>
      let expv : Option Int :=
        match erest with
        | [] => some 0
        | _ :: xs => parseExp xs
      match expv with
      | none => none
      | some e =>
        let q := mantExpVal v.1 v.2.1 v.2.2 e
        some (PyFloat.finite (if sgnu.1 then -q else q))

/-- The duration computation of `_parse_pytest_output`: text between the
first `[` and the following `s]` parsed by Python `float()`, defaulting to
0 when the brackets are absent or the text does not parse. -/
def parseDuration (line : List Char) : PyFloat :=
  if containsSub line ['['] && containsSub line "s]".data then
    match parsePyFloat ((pySplit ((pySplit line ['[']).getD 1 []) "s]".data).getD 0 []) with
    | some f => f
    | none => PyFloat.finite 0
  else PyFloat.finite 0

/-- The status/message selection of `_parse_pytest_output` for a result
line (the final branch is the code's dead `unknown` arm). -/
def lineStatusMsg (line : List Char) : Status × List Char :=
  if containsSub line "PASSED".data then (Status.passed, msgPassed)
  else if containsSub line "FAILED".data then (Status.failed, msgFailed)
  else if containsSub line "ERROR".data then (Status.error, msgError)
  else (Status.unknown, msgUnknown)

/-- The outcome record `_parse_pytest_output` stores for a matched result
line. -/
def lineOutcome (line : List Char) : Outcome :=
  ⟨(lineStatusMsg line).1, (lineStatusMsg line).2, parseDuration line⟩

/-- The guard under which `_parse_pytest_output` treats a line as a result
line (after the `::test_` check): it mentions PASSED, FAILED or ERROR. -/
def resultLineFlag (line : List Char) : Bool :=
  containsSub line "PASSED".data || containsSub line "FAILED".data ||
    containsSub line "ERROR".data

/-- The `method_to_req` reverse lookup table: maps each synthesized
`test_<derived-name>` to its requirement id; built in requirement order
with later requirements overriding earlier ones, as Python dict insertion
does. -/
def buildMethodMap (reqs : List Req) : List (List Char × List Char) :=
  reqs.foldl
    (fun m r => ("test_".data ++ TestRunner.create_method_name r.text, r.id) :: m) []

/-- Scanner state of `_parse_pytest_output`: whether the session-start
marker has been seen, and the results gathered so far. -/
structure PState : Type where
  started : Bool
  results : List (List Char × Outcome)

/-- One iteration of the line loop of `_parse_pytest_output`. The
`.error ()` arm models the uncaught IndexError Python raises at
`test_method_part.split()[0]` when the final `::`-separated field of a
result line is empty. -/
def processLine (mreq : List (List Char × List Char)) (st : PState) (raw : List Char) :
    Except Unit PState :=
  let line := stripL raw
  if containsSub (lowerL line) "test session starts".data ||
      containsSub line "=======".data then
    .ok { st with started := true }
  else if !st.started then
    .ok st
  else if containsSub line "::test_".data && resultLineFlag line then
    let parts := pySplit line "::".data
    if 3 ≤ parts.length then
      match splitWs (parts.getLastD []) with
      | [] => .error ()
      | test_method :: _ =>
        match alookup mreq test_method with
        | none => .ok st
        | some req_id =>
          if req_id.isEmpty then .ok st
          else .ok { st with results := (req_id, lineOutcome line) :: st.results }
    else .ok st
  else .ok st

/-- The whole line loop of `_parse_pytest_output`. -/
def foldLines (mreq : List (List Char × List Char)) :
    PState → List (List Char) → Except Unit PState
  | st, [] => .ok st
  | st, l :: ls =>
    match processLine mreq st l with
    | .error e => .error e
    | .ok st2 => foldLines mreq st2 ls

/-- The per-line correlation results of `_parse_pytest_output` alone:
everything the line loop recorded, before the exit-code fallback and the
skipped fill. -/
def lineResults (stdout stderr : List Char) (reqs : List Req) :
    Except Unit (List (List Char × Outcome)) :=
  match foldLines (buildMethodMap reqs) ⟨false, []⟩ (pySplit (stdout ++ stderr) ['\n']) with
  | .error e => .error e
  | .ok st => .ok st.results

/-- The exit-code fallback of `_parse_pytest_output`: when the line loop
recorded nothing, every requirement becomes passed (exit code 0) or failed
(nonzero exit code) with the inferred message. -/
def applyFallback (returncode : Int) (reqs : List Req)
    (res : List (List Char × Outcome)) : List (List Char × Outcome) :=
  if res.isEmpty && returncode == 0 then
    reqs.foldl (fun m r => (r.id, ⟨Status.passed, msgInferredPass, PyFloat.finite 0⟩) :: m) res
  else if res.isEmpty && !(returncode == 0) then
    reqs.foldl (fun m r => (r.id, ⟨Status.failed, msgInferredFail, PyFloat.finite 0⟩) :: m) res
  else res

/-- The final fill of `_parse_pytest_output`: any requirement still
unmapped becomes skipped. -/
def fillSkipped (reqs : List Req) (res : List (List Char × Outcome)) :
    List (List Char × Outcome) :=
  reqs.foldl
    (fun m r => if (alookup m r.id).isSome then m else (r.id, skippedOutcome) :: m) res

/-- `TestRunner._parse_pytest_output`: scan the combined output lines, then
apply the exit-code fallback and the skipped fill. The `.error` result
models the IndexError escape (see `processLine`). -/
def parse_pytest_output (stdout stderr : List Char) (returncode : Int)
    (reqs : List Req) : Except Unit (List (List Char × Outcome)) :=
  match foldLines (buildMethodMap reqs) ⟨false, []⟩ (pySplit (stdout ++ stderr) ['\n']) with
  | .error e => .error e
  | .ok st => .ok (fillSkipped reqs (applyFallback returncode reqs st.results))

/-- The outcome the exit-code fallback assigns. -/
def fallbackOutcome (returncode : Int) : Outcome :=
  if returncode = 0 then ⟨Status.passed, msgInferredPass, PyFloat.finite 0⟩
  else ⟨Status.failed, msgInferredFail, PyFloat.finite 0⟩

/-- Sample requirement for the correlator witnesses (method name
`test_x`). -/
def wreq : Req := Req.mk "REQ_001".data "x".data "Functional".data false none []

/-- Lookup after prepending one binding. -/
theorem alookup_cons {α : Type} (a : List Char) (v : α) (m : List (List Char × α))
    (k : List Char) :
    alookup ((a, v) :: m) k = if a == k then some v else alookup m k := by
  cases h : a == k <;> simp [alookup, List.find?, h]

/-- Prepending a binding never makes a present key absent. -/
theorem alookup_cons_isSome {α : Type} (a : List Char) (v : α) (m : List (List Char × α))
    (k : List Char) (h : (alookup m k).isSome = true) :
    (alookup ((a, v) :: m) k).isSome = true := by
  rw [alookup_cons]
  cases ha : a == k <;> simp [h]

/-- A key bound to `v` stays bound to `v` through a constant-value insertion
fold (every inserted binding also carries `v`). -/
theorem lookup_const_fold_pres (v : Outcome) (xs : List Req) :
    ∀ (init : List (List Char × Outcome)) (k : List Char),
      alookup init k = some v →
      alookup (xs.foldl (fun m x => (x.id, v) :: m) init) k = some v := by
  induction xs with
  | nil => intro init k h; simpa using h
  | cons x xs ih =>
    intro init k h
    rw [List.foldl_cons]
    apply ih
    rw [alookup_cons]
    cases hx : x.id == k <;> simp [h]

/-- After a constant-value insertion fold over `reqs`, every member's id is
bound to the inserted value. -/
theorem lookup_const_fold (v : Outcome) (reqs : List Req) :
    ∀ (init : List (List Char × Outcome)) (r : Req), r ∈ reqs →
      alookup (reqs.foldl (fun m x => (x.id, v) :: m) init) r.id = some v := by
  induction reqs with
  | nil => intro _ r h; cases h
  | cons x xs ih =>
    intro init r hr
    rw [List.foldl_cons]
    rcases List.mem_cons.mp hr with h | h
    · subst h
      apply lookup_const_fold_pres
      rw [alookup_cons]
      simp
    · exact ih _ r h

/-- The skipped fill only adds skipped bindings: any lookup afterwards is
either the pre-fill lookup or the skipped outcome. -/
theorem fillSkipped_lookup (reqs : List Req) :
    ∀ (res : List (List Char × Outcome)) (k : List Char),
      alookup (fillSkipped reqs res) k = alookup res k ∨
      alookup (fillSkipped reqs res) k = some skippedOutcome := by
  induction reqs with
  | nil => intro res k; left; rfl
  | cons x xs ih =>
    intro res k
    have hstep : fillSkipped (x :: xs) res = fillSkipped xs
        (if (alookup res x.id).isSome then res else (x.id, skippedOutcome) :: res) := rfl
    rw [hstep]
    by_cases hx : (alookup res x.id).isSome = true
    · rw [if_pos hx]
      exact ih res k
    · rw [if_neg hx]
      rcases ih ((x.id, skippedOutcome) :: res) k with h | h
      · rw [h, alookup_cons]
        cases hxk : x.id == k
        · left; simp
        · right; simp
      · right; exact h

/-- Presence of a key is preserved by the skipped fill. -/
theorem fillSkipped_pres (reqs : List Req) :
    ∀ (res : List (List Char × Outcome)) (k : List Char),
      (alookup res k).isSome = true →
      (alookup (fillSkipped reqs res) k).isSome = true := by
  induction reqs with
  | nil => intro res k h; exact h
  | cons x xs ih =>
    intro res k h
    have hstep : fillSkipped (x :: xs) res = fillSkipped xs
        (if (alookup res x.id).isSome then res else (x.id, skippedOutcome) :: res) := rfl
    rw [hstep]
    by_cases hx : (alookup res x.id).isSome = true
    · rw [if_pos hx]; exact ih res k h
    · rw [if_neg hx]
      exact ih _ k (alookup_cons_isSome _ _ _ _ h)

/-- After the skipped fill every requirement's id is present. -/
theorem fillSkipped_mem (reqs : List Req) :
    ∀ (res : List (List Char × Outcome)) (r : Req), r ∈ reqs →
      (alookup (fillSkipped reqs res) r.id).isSome = true := by
  induction reqs with
  | nil => intro _ r h; cases h
  | cons x xs ih =>
    intro res r hr
    have hstep : fillSkipped (x :: xs) res = fillSkipped xs
        (if (alookup res x.id).isSome then res else (x.id, skippedOutcome) :: res) := rfl
    rw [hstep]
    rcases List.mem_cons.mp hr with h | h
    · subst h
      by_cases hx : (alookup res r.id).isSome = true
      · rw [if_pos hx]; exact fillSkipped_pres xs res r.id hx
      · rw [if_neg hx]
        apply fillSkipped_pres
        rw [alookup_cons]
        simp
    · exact ih _ r h

/-- When every requirement's id is already present, the skipped fill changes
nothing. -/
theorem fillSkipped_eq_of_all (reqs : List Req) :
    ∀ (res : List (List Char × Outcome)),
      (∀ r ∈ reqs, (alookup res r.id).isSome = true) →
      fillSkipped reqs res = res := by
  induction reqs with
  | nil => intro res _; rfl
  | cons x xs ih =>
    intro res hall
    have hstep : fillSkipped (x :: xs) res = fillSkipped xs
        (if (alookup res x.id).isSome then res else (x.id, skippedOutcome) :: res) := rfl
    rw [hstep, if_pos (hall x (List.mem_cons_self x xs))]
    exact ih res (fun r hr => hall r (List.mem_cons_of_mem x hr))

/-- A per-outcome predicate survives a constant-value insertion fold whose
inserted value satisfies it. -/
theorem foldl_insert_pred (P : Outcome → Prop) (v : Outcome) (hv : P v) (reqs : List Req) :
    ∀ (init : List (List Char × Outcome)),
      (∀ p ∈ init, P p.2) →
      ∀ p ∈ reqs.foldl (fun m x => (x.id, v) :: m) init, P p.2 := by
  induction reqs with
  | nil => intro init h; simp only [List.foldl_nil]; exact h
  | cons x xs ih =>
    intro init h
    rw [List.foldl_cons]
    apply ih
    intro p hp
    rcases List.mem_cons.mp hp with h1 | h1
    · subst h1; exact hv
    · exact h p h1

/-- A per-outcome predicate holding of both inferred outcomes survives the
exit-code fallback. -/
theorem applyFallback_pred (P : Outcome → Prop)
    (hp : P ⟨Status.passed, msgInferredPass, PyFloat.finite 0⟩)
    (hf : P ⟨Status.failed, msgInferredFail, PyFloat.finite 0⟩)
    (rc : Int) (reqs : List Req) (res : List (List Char × Outcome))
    (h : ∀ p ∈ res, P p.2) :
    ∀ p ∈ applyFallback rc reqs res, P p.2 := by
  unfold applyFallback
  split
  · exact foldl_insert_pred P _ hp reqs res h
  · split
    · exact foldl_insert_pred P _ hf reqs res h
    · exact h

/-- A per-outcome predicate holding of the skipped outcome survives the
skipped fill. -/
theorem fillSkipped_pred (P : Outcome → Prop) (hs : P skippedOutcome) (reqs : List Req) :
    ∀ (res : List (List Char × Outcome)),
      (∀ p ∈ res, P p.2) →
      ∀ p ∈ fillSkipped reqs res, P p.2 := by
  induction reqs with
  | nil => intro res h; exact h
  | cons x xs ih =>
    intro res h
    have hstep : fillSkipped (x :: xs) res = fillSkipped xs
        (if (alookup res x.id).isSome then res else (x.id, skippedOutcome) :: res) := rfl
    rw [hstep]
    apply ih
    split
    · exact h
    · intro p hp
      rcases List.mem_cons.mp hp with h1 | h1
      · subst h1; exact hs
      · exact h p h1

/-- Under the result-line guard, the status selected for a line is never
`unknown` (the code's `unknown` arm is dead). -/
theorem lineStatusMsg_ne_unknown (line : List Char) (h : resultLineFlag line = true) :
    (lineStatusMsg line).1 ≠ Status.unknown := by
  cases h1 : containsSub line "PASSED".data
  · cases h2 : containsSub line "FAILED".data
    · cases h3 : containsSub line "ERROR".data
      · rw [resultLineFlag, h1, h2, h3] at h
        simp at h
      · simp [lineStatusMsg, h1, h2, h3]
    · simp [lineStatusMsg, h1, h2]
  · simp [lineStatusMsg, h1]

/-- One line-loop step preserves a per-outcome predicate, given that the
predicate holds of the outcome this line would store. -/
theorem processLine_inv (P : Outcome → Prop) (mreq : List (List Char × List Char))
    (st : PState) (raw : List Char) (st' : PState)
    (hins : ∀ p ∈ st.results, P p.2)
    (hnew : resultLineFlag (stripL raw) = true → P (lineOutcome (stripL raw)))
    (h : processLine mreq st raw = .ok st') :
    ∀ p ∈ st'.results, P p.2 := by
  simp only [processLine] at h
  split at h
  · simp only [Except.ok.injEq] at h
    subst h
    exact hins
  · split at h
    · simp only [Except.ok.injEq] at h
      subst h
      exact hins
    · split at h
      · split at h
        · split at h
          · cases h
          · split at h
            · simp only [Except.ok.injEq] at h
              subst h
              exact hins
            · split at h
              · simp only [Except.ok.injEq] at h
                subst h
                exact hins
              · simp only [Except.ok.injEq] at h
                subst h
                intro p hp
                rcases List.mem_cons.mp hp with h1 | h1
                · subst h1
                  have hguard : (containsSub (stripL raw) "::test_".data &&
                      resultLineFlag (stripL raw)) = true := by assumption
                  exact hnew (Bool.and_elim_right hguard)
                · exact hins p h1
        · simp only [Except.ok.injEq] at h
          subst h
          exact hins
      · simp only [Except.ok.injEq] at h
        subst h
        exact hins

/-- The whole line loop preserves a per-outcome predicate, given that the
predicate holds of the outcome each scanned line would store. -/
theorem foldLines_inv (P : Outcome → Prop) (mreq : List (List Char × List Char))
    (ls : List (List Char)) :
    ∀ (st st' : PState),
      (∀ p ∈ st.results, P p.2) →
      (∀ raw ∈ ls, resultLineFlag (stripL raw) = true → P (lineOutcome (stripL raw))) →
      foldLines mreq st ls = .ok st' →
      ∀ p ∈ st'.results, P p.2 := by
  induction ls with
  | nil =>
    intro st st' h1 _ h3
    simp only [foldLines, Except.ok.injEq] at h3
    subst h3
    exact h1
  | cons l ls ih =>
    intro st st' h1 h2 h3
    simp only [foldLines] at h3
    cases hpl : processLine mreq st l with
    | error e => rw [hpl] at h3; cases h3
    | ok st1 =>
      rw [hpl] at h3
      exact ih st1 st'
        (processLine_inv P mreq st l st1 h1 (h2 l (List.mem_cons_self l ls)) hpl)
        (fun raw hraw => h2 raw (List.mem_cons_of_mem l hraw)) h3

/-- Whenever `_parse_pytest_output` returns a map, every outcome in it
satisfies any predicate that holds of the two inferred outcomes, the skipped
outcome, and the outcome of each scanned line. -/
theorem parse_output_pred (P : Outcome → Prop)
    (hp : P ⟨Status.passed, msgInferredPass, PyFloat.finite 0⟩)
    (hf : P ⟨Status.failed, msgInferredFail, PyFloat.finite 0⟩)
    (hs : P skippedOutcome)
    (stdout stderr : List Char) (rc : Int) (reqs : List Req)
    (m : List (List Char × Outcome))
    (hm : parse_pytest_output stdout stderr rc reqs = .ok m)
    (hline : ∀ raw ∈ pySplit (stdout ++ stderr) ['\n'],
      resultLineFlag (stripL raw) = true → P (lineOutcome (stripL raw))) :
    ∀ p ∈ m, P p.2 := by
  unfold parse_pytest_output at hm
  cases hfl : foldLines (buildMethodMap reqs) ⟨false, []⟩ (pySplit (stdout ++ stderr) ['\n']) with
  | error e => rw [hfl] at hm; cases hm
  | ok st =>
    rw [hfl] at hm
    simp only [Except.ok.injEq] at hm
    subst hm
    have h1 : ∀ p ∈ st.results, P p.2 :=
      foldLines_inv P (buildMethodMap reqs) (pySplit (stdout ++ stderr) ['\n'])
        ⟨false, []⟩ st (by intro p hp'; cases hp') hline hfl
    exact fillSkipped_pred P hs reqs (applyFallback rc reqs st.results)
      (applyFallback_pred P hp hf rc reqs st.results h1)

/-- Claim C4: when the line scan completes with zero per-line matches, the
exit-code fallback assigns every requirement the passed outcome with the
inferred message if the exit code is 0, and the failed outcome with the
analogous message otherwise; and the fallback is applied only in that case —
whenever the scan recorded at least one match the result map is exactly the
matches plus the skipped fill. -/
theorem parse_output_exit_code_fallback (stdout stderr : List Char) (rc : Int)
    (reqs : List Req) :
    (reqs ≠ [] → lineResults stdout stderr reqs = .ok [] →
      parse_pytest_output stdout stderr rc reqs
          = .ok (fillSkipped reqs (applyFallback rc reqs [])) ∧
      ∀ r ∈ reqs,
        alookup (fillSkipped reqs (applyFallback rc reqs [])) r.id
          = some (fallbackOutcome rc)) ∧
    (∀ res, lineResults stdout stderr reqs = .ok res → res ≠ [] →
      parse_pytest_output stdout stderr rc reqs = .ok (fillSkipped reqs res)) := by
  cases hfl : foldLines (buildMethodMap reqs) ⟨false, []⟩ (pySplit (stdout ++ stderr) ['\n']) with
  | error e =>
    constructor
    · intro _ h
      simp [lineResults, hfl] at h
    · intro res h
      simp [lineResults, hfl] at h
  | ok st =>
    have hlr : lineResults stdout stderr reqs = .ok st.results := by
      simp [lineResults, hfl]
    constructor
    · intro hne h
      rw [hlr] at h
      simp only [Except.ok.injEq] at h
      constructor
      · simp [parse_pytest_output, hfl, h]
      · intro r hr
        by_cases hrc : rc = 0
        · have hfb : applyFallback rc reqs [] =
              reqs.foldl (fun m x => (x.id, ⟨Status.passed, msgInferredPass, PyFloat.finite 0⟩) :: m) [] := by
            simp [applyFallback, hrc]
          rw [hfb]
          have hall : ∀ x ∈ reqs,
              (alookup (reqs.foldl
                (fun m x => (x.id, (⟨Status.passed, msgInferredPass, PyFloat.finite 0⟩ : Outcome)) :: m) [])
                x.id).isSome = true := by
            intro x hx
            rw [lookup_const_fold ⟨Status.passed, msgInferredPass, PyFloat.finite 0⟩ reqs [] x hx]
            rfl
          rw [fillSkipped_eq_of_all reqs _ hall]
          rw [lookup_const_fold ⟨Status.passed, msgInferredPass, PyFloat.finite 0⟩ reqs [] r hr]
          simp [fallbackOutcome, hrc]
        · have hbe : (rc == 0) = false := by
            simp [hrc]
          have hfb : applyFallback rc reqs [] =
              reqs.foldl (fun m x => (x.id, ⟨Status.failed, msgInferredFail, PyFloat.finite 0⟩) :: m) [] := by
            simp [applyFallback, hbe]
          rw [hfb]
          have hall : ∀ x ∈ reqs,
              (alookup (reqs.foldl
                (fun m x => (x.id, (⟨Status.failed, msgInferredFail, PyFloat.finite 0⟩ : Outcome)) :: m) [])
                x.id).isSome = true := by
            intro x hx
            rw [lookup_const_fold ⟨Status.failed, msgInferredFail, PyFloat.finite 0⟩ reqs [] x hx]
            rfl
          rw [fillSkipped_eq_of_all reqs _ hall]
          rw [lookup_const_fold ⟨Status.failed, msgInferredFail, PyFloat.finite 0⟩ reqs [] r hr]
          simp [fallbackOutcome, hrc]
    · intro res h hne
      rw [hlr] at h
      simp only [Except.ok.injEq] at h
      subst h
      simp [parse_pytest_output, hfl, applyFallback, hne]

/-- Concrete run of claim C4's theorem: with empty captured output and exit
code 0, the single requirement is looked up as passed with the inferred
message. -/
theorem parse_output_exit_code_fallback_witness :
    alookup (fillSkipped [wreq] (applyFallback 0 [wreq] [])) wreq.id
      = some (fallbackOutcome 0) :=
  ((parse_output_exit_code_fallback [] [] 0 [wreq]).1
    (List.cons_ne_nil _ _) rfl).2 wreq (List.mem_singleton.mpr rfl)

/-- Claim C5 counterexample: on this captured stdout the scanner reaches a
result line whose final `::`-separated field is empty, where Python's
`test_method_part.split()[0]` raises an uncaught IndexError inside
`_parse_pytest_output` (modelled by `.error ()`): the function does not
return a mapping at all on this input, so it does not return one containing
every requirement id. -/
theorem parse_output_total_counterexample :
    parse_pytest_output "test session starts\na::test_x PASSED::".data [] 0 [wreq]
      = .error () := by
  rfl

/-- Claim C5 (amended): whenever the line scan completes without the
IndexError fault — i.e. `_parse_pytest_output` returns a map — that map
contains an outcome for every requirement id, and any requirement id left
unbound by the line matches and the exit-code fallback is bound to the
skipped outcome with the not-executed message. -/
theorem parse_output_complete_when_ok (stdout stderr : List Char) (rc : Int)
    (reqs : List Req) (res m : List (List Char × Outcome))
    (hres : lineResults stdout stderr reqs = .ok res)
    (hm : parse_pytest_output stdout stderr rc reqs = .ok m)
    (r : Req) (hr : r ∈ reqs) :
    (alookup m r.id).isSome = true ∧
    (alookup (applyFallback rc reqs res) r.id = none →
      alookup m r.id = some skippedOutcome) := by
  cases hfl : foldLines (buildMethodMap reqs) ⟨false, []⟩ (pySplit (stdout ++ stderr) ['\n']) with
  | error e => simp [lineResults, hfl] at hres
  | ok st =>
    have h1 : st.results = res := by
      simp [lineResults, hfl] at hres
      exact hres
    have h2 : m = fillSkipped reqs (applyFallback rc reqs res) := by
      simp [parse_pytest_output, hfl, h1] at hm
      exact hm.symm
    subst h2
    constructor
    · exact fillSkipped_mem reqs _ r hr
    · intro hnone
      rcases fillSkipped_lookup reqs (applyFallback rc reqs res) r.id with h | h
      · have hmem := fillSkipped_mem reqs (applyFallback rc reqs res) r hr
        rw [h, hnone] at hmem
        cases hmem
      · exact h

/-- Concrete run of claim C5's amended theorem: with empty captured output
and exit code 0 the returned map binds the requirement's id. -/
theorem parse_output_complete_when_ok_witness :
    (alookup [("REQ_001".data, Outcome.mk Status.passed msgInferredPass (PyFloat.finite 0))]
      wreq.id).isSome = true ∧
    (alookup (applyFallback 0 [wreq] []) wreq.id = none →
      alookup [("REQ_001".data, Outcome.mk Status.passed msgInferredPass (PyFloat.finite 0))]
        wreq.id = some skippedOutcome) :=
  parse_output_complete_when_ok [] [] 0 [wreq] []
    [("REQ_001".data, Outcome.mk Status.passed msgInferredPass (PyFloat.finite 0))]
    rfl rfl wreq (List.mem_singleton.mpr rfl)

/-- Claim C9 counterexample: a captured output line carrying the bracketed
suffix `[-1e1s]` makes `_parse_pytest_output` store duration -10 (Python's
`float("-1e1")` is -10.0), a negative value, so not every outcome record
has duration ≥ 0. -/
theorem parse_output_duration_counterexample :
    parse_pytest_output "test session starts\na::b::test_x PASSED [-1e1s]".data [] 0 [wreq]
        = .ok [("REQ_001".data, Outcome.mk Status.passed msgPassed (PyFloat.finite (-10)))] ∧
    (PyFloat.finite (-10)).nonneg = false := by
  constructor
  · rfl
  · decide

/-- Claim C9 (amended): every outcome record `_parse_pytest_output` returns
has a duration that is nonnegative in Python's float ordering, provided
each scanned line's bracketed duration value is nonnegative (fallback and
skipped records always carry duration 0); the duration is 0 whenever the
bracketed `[<seconds>s]` suffix is absent or its contents fail to parse as
a Python float — but a bracketed negative value (such as -3, -1e1 or -inf)
or nan is stored as is, so duration ≥ 0 does not hold for every possible
captured output. -/
theorem parse_output_duration_nonneg (stdout stderr : List Char) (rc : Int)
    (reqs : List Req) :
    (∀ m, parse_pytest_output stdout stderr rc reqs = .ok m →
      (∀ raw ∈ pySplit (stdout ++ stderr) ['\n'],
        (parseDuration (stripL raw)).nonneg = true) →
      ∀ p ∈ m, p.2.duration.nonneg = true) ∧
    (∀ line : List Char,
      (containsSub line ['['] && containsSub line "s]".data) = false →
      parseDuration line = PyFloat.finite 0) ∧
    (∀ line : List Char,
      parsePyFloat ((pySplit ((pySplit line ['[']).getD 1 []) "s]".data).getD 0 []) = none →
      parseDuration line = PyFloat.finite 0) := by
  refine ⟨?_, ?_, ?_⟩
  · intro m hm hdur
    apply parse_output_pred (fun o => o.duration.nonneg = true) (by decide) (by decide)
      (by decide) stdout stderr rc reqs m hm
    intro raw hraw _
    have h := hdur raw hraw
    simpa [lineOutcome] using h
  · intro line h
    simp [parseDuration, h]
  · intro line h
    unfold parseDuration
    by_cases hb : (containsSub line ['['] && containsSub line "s]".data) = true
    · rw [if_pos hb, h]
    · rw [if_neg hb]

/-- Concrete run of claim C9's amended theorem: with empty captured output
and exit code 0 the single (fallback) record has nonnegative duration. -/
theorem parse_output_duration_nonneg_witness :
    ("REQ_001".data,
        Outcome.mk Status.passed msgInferredPass (PyFloat.finite 0)).2.duration.nonneg
      = true :=
  (parse_output_duration_nonneg [] [] 0 [wreq]).1
    [("REQ_001".data, Outcome.mk Status.passed msgInferredPass (PyFloat.finite 0))]
    rfl (by decide)
    ("REQ_001".data, Outcome.mk Status.passed msgInferredPass (PyFloat.finite 0))
    (List.mem_singleton.mpr rfl)

/-- Claim C10: the `unknown` branch of `_parse_pytest_output` is dead — a
line is only correlated when it mentions PASSED, FAILED or ERROR — so every
outcome in any returned map has a status among passed, failed, error,
skipped, and never `unknown`. -/
theorem parse_output_no_unknown_status (stdout stderr : List Char) (rc : Int)
    (reqs : List Req) (m : List (List Char × Outcome))
    (hm : parse_pytest_output stdout stderr rc reqs = .ok m) :
    ∀ p ∈ m, p.2.status ≠ Status.unknown ∧
      (p.2.status = Status.passed ∨ p.2.status = Status.failed ∨
       p.2.status = Status.error ∨ p.2.status = Status.skipped) := by
  have key : ∀ p ∈ m, p.2.status ≠ Status.unknown := by
    apply parse_output_pred (fun o => o.status ≠ Status.unknown)
      (by simp) (by simp) (by simp [skippedOutcome]) stdout stderr rc reqs m hm
    intro raw _ hflag
    simpa [lineOutcome] using lineStatusMsg_ne_unknown (stripL raw) hflag
  intro p hp
  refine ⟨key p hp, ?_⟩
  cases hst : p.2.status
  · exact Or.inl rfl
  · exact Or.inr (Or.inl rfl)
  · exact Or.inr (Or.inr (Or.inl rfl))
  · exact Or.inr (Or.inr (Or.inr rfl))
  · exact absurd hst (key p hp)

/-- Concrete run of claim C10's theorem: the single (fallback) record of an
empty-output run has a non-unknown status. -/
theorem parse_output_no_unknown_status_witness :
    ("REQ_001".data, Outcome.mk Status.passed msgInferredPass (PyFloat.finite 0)).2.status
        ≠ Status.unknown ∧
    (("REQ_001".data, Outcome.mk Status.passed msgInferredPass (PyFloat.finite 0)).2.status
          = Status.passed ∨
     ("REQ_001".data, Outcome.mk Status.passed msgInferredPass (PyFloat.finite 0)).2.status
          = Status.failed ∨
     ("REQ_001".data, Outcome.mk Status.passed msgInferredPass (PyFloat.finite 0)).2.status
          = Status.error ∨
     ("REQ_001".data, Outcome.mk Status.passed msgInferredPass (PyFloat.finite 0)).2.status
          = Status.skipped) :=
  parse_output_no_unknown_status [] [] 0 [wreq]
    [("REQ_001".data, Outcome.mk Status.passed msgInferredPass (PyFloat.finite 0))] rfl
    ("REQ_001".data, Outcome.mk Status.passed msgInferredPass (PyFloat.finite 0))
    (List.mem_singleton.mpr rfl)

end ReqToTest
